import Mathlib

/-!
Verification development for the Pillow/OpenCV document-search pipeline
(`project.py`).  The pipeline scans a collection of scanned-document images,
finds pages whose OCR text contains a search phrase, detects faces on those
pages, and assembles the detected faces into per-document contact sheets that
are concatenated vertically.

Shallow embedding notes:
* Rasters (PIL images / numpy arrays) are modelled as a width, a height and a
  row-major list of RGB pixels; `Image.new ("RGB", ...)` initialises to black.
* External black boxes (the two cascade detectors, the OCR engine, the
  BGR-to-gray conversion, PIL's aspect-preserving `Image.thumbnail` resampling
  and the font/glyph renderer used by `ImageDraw.text`) are passed in as
  function parameters: the spec treats them as collaborators and no claim
  depends on their internals.
* All pure post-processing logic (`find_faces` filtering, sorting and
  deduplication, `make_contact_sheet` sizing and grid placement,
  `concatenate_images`, `phrase_in`, and the `do_project` orchestration with
  its `img == img_list[0]` accumulator seeding) is translated directly from
  the source.
-/

/-- An RGB pixel, one `Nat` per channel. -/
abbrev RGB : Type := Nat × Nat × Nat

/-- Black, the fill colour of a fresh `Image.new ("RGB", (w, h))`. -/
def rgbBlack : RGB := (0, 0, 0)

/-- White, used by the `drawing.rectangle(..., fill = "white")` calls. -/
def rgbWhite : RGB := (255, 255, 255)

/-- A raster image: width, height and row-major pixel rows.  Models both PIL
images and the OpenCV/numpy arrays of the source program. -/
structure Raster where
  width : Nat
  height : Nat
  rows : List (List RGB)
deriving DecidableEq

/-- Pixel read; out-of-range reads default to black. -/
def Raster.px (a : Raster) (i j : Nat) : RGB :=
  (a.rows.getD j []).getD i rgbBlack

/-- Build a raster of the given size from a pixel function. -/
def mkImage (w hgt : Nat) (f : Nat → Nat → RGB) : Raster :=
  ⟨w, hgt, (List.range hgt).map fun j => (List.range w).map fun i => f i j⟩

/-- `Image.new ("RGB", (w, h))`: a black canvas. -/
def image_new (w hgt : Nat) : Raster :=
  mkImage w hgt fun _ _ => rgbBlack

/-- `base.paste(img, (x0, y0))` as a pure operation: the canvas keeps its
size, and pixels in the pasted rectangle are taken from `img`. -/
def Raster.paste (base img : Raster) (x0 y0 : Nat) : Raster :=
  mkImage base.width base.height fun i j =>
    if x0 ≤ i ∧ i < x0 + img.width ∧ y0 ≤ j ∧ j < y0 + img.height then
      img.px (i - x0) (j - y0)
    else
      base.px i j

/-- `drawing.rectangle([x0, y0, x1, y1], fill = c)`: PIL fills the closed
rectangle including both corners. -/
def draw_rect (base : Raster) (x0 y0 x1 y1 : Nat) (c : RGB) : Raster :=
  mkImage base.width base.height fun i j =>
    if x0 ≤ i ∧ i ≤ x1 ∧ y0 ≤ j ∧ j ≤ y1 then c else base.px i j

/-- Abstract glyph renderer standing for the external font rasteriser used by
`ImageDraw.text`: given the anchor position and the text, it yields the ink
colour at a pixel, or `none` where the background shows through.  Text drawing
never changes the canvas size. -/
abbrev Glyph : Type := Nat × Nat → List Char → Nat → Nat → Option RGB

/-- `drawing.text(pos, s, font = FONT, ...)` with an abstract glyph
renderer. -/
def draw_text (g : Glyph) (base : Raster) (pos : Nat × Nat) (s : List Char) : Raster :=
  mkImage base.width base.height fun i j => (g pos s i j).getD (base.px i j)

/-- Signed pixel read used by `crop`: coordinates outside the source image
(negative included) read as black, matching PIL crop padding. -/
def Raster.pxZ (a : Raster) (u v : Int) : RGB :=
  if 0 ≤ u ∧ 0 ≤ v then a.px u.toNat v.toNat else rgbBlack

/-- `img.crop((x0, y0, x1, y1))`. -/
def Raster.crop (a : Raster) (x0 y0 x1 y1 : Int) : Raster :=
  mkImage (x1 - x0).toNat (y1 - y0).toNat fun i j => a.pxZ (x0 + i) (y0 + j)

/-- A detector bounding box `(x, y, w, h)`, integer pixel coordinates. -/
structure Box where
  x : Int
  y : Int
  w : Int
  h : Int
deriving DecidableEq

/-- The containment test of `find_faces`: with `x1 = x + w` and `y1 = y + h`,
the eye box's top-left corner satisfies `x <= testx <= x1 and
y <= testy <= y1`. -/
def eyeInFace (f e : Box) : Prop :=
  f.x ≤ e.x ∧ e.x ≤ f.x + f.w ∧ f.y ≤ e.y ∧ e.y ≤ f.y + f.h

instance (f e : Box) : Decidable (eyeInFace f e) := by
  unfold eyeInFace; infer_instance

/-- Lexicographic comparison of boxes by `(x, y, w, h)`: the order Python's
`sorted` uses on the `[x, y, w, h]` lists built by `find_faces`. -/
def boxLe (a b : Box) : Prop :=
  a.x < b.x ∨ (a.x = b.x ∧ (a.y < b.y ∨ (a.y = b.y ∧
    (a.w < b.w ∨ (a.w = b.w ∧ a.h ≤ b.h)))))

instance : DecidableRel boxLe := fun a b => by
  unfold boxLe; infer_instance

/-- Strict version of `boxLe`. -/
def boxLt (a b : Box) : Prop := boxLe a b ∧ a ≠ b

/-- The nested accumulation loop of `find_faces`: for each face box, for each
eye box, append the face box when the eye's corner lies inside it. -/
def face_list (faces eyes : List Box) : List Box :=
  faces.flatMap fun f => eyes.flatMap fun e => if eyeInFace f e then [f] else []

/-- `list(x for x, _ in itertools.groupby(xs))`: collapse consecutive equal
entries. -/
def dedupConsec : List Box → List Box
  | [] => []
  | a :: rest =>
    match rest with
    | [] => [a]
    | b :: _ => if a = b then dedupConsec rest else a :: dedupConsec rest

/-- The pure filtering logic of `find_faces` (source lines 63-75): accumulate
faces corroborated by an eye corner, sort the `[x, y, w, h]` records, and
collapse consecutive duplicates with `itertools.groupby`.  The two
`detectMultiScale` calls that produce `faces` and `eyes` are external
collaborators and appear here as the two list arguments. -/
def find_faces (faces eyes : List Box) : List Box :=
  dedupConsec (List.insertionSort boxLe (face_list faces eyes))

/-- `get_faces(img, boxes)` crops one face image per box from a copy of the
document's colour raster. -/
def get_faces_rasters (image : Raster) (boxes : List Box) : List Raster :=
  boxes.map fun b => image.crop b.x b.y (b.x + b.w) (b.y + b.h)

/-- The paste loop of `make_contact_sheet`: cursor starts where the caller
says, advances `x` by 100 after each paste, and wraps to the next row when
`x + 100` equals the sheet width. -/
def paste_loop : Raster → List Raster → Nat → Nat → Raster
  | canvas, [], _, _ => canvas
  | canvas, img :: rest, x, y =>
    let c2 := canvas.paste img x y
    if x + 100 = c2.width then paste_loop c2 rest 0 (y + 100)
    else paste_loop c2 rest (x + 100) y

/-- The literal zero-faces message drawn by `make_contact_sheet`. -/
def noFacesMsg : List Char := ("But there were no faces in that file!").toList

/-- The row-count computation of `make_contact_sheet`: `height = int(len/5)`,
plus one when the length is not a multiple of 5, plus one when the list is
empty. -/
def sheet_rows (n : Nat) : Nat :=
  let hgt := n / 5
  let hgt := if n % 5 ≠ 0 then hgt + 1 else hgt
  if n = 0 then hgt + 1 else hgt

/-- The banner part of `make_contact_sheet`: canvas allocation (row count
computed from the thumbnail count), white caption banner with the results
text, and the extra "no faces" banner row when the list is empty. -/
def sheet_banner (g : Glyph) (n : Nat) (results : List Char) : Raster :=
  let cs := image_new 500 (sheet_rows n * 100 + 50)
  let cs := draw_rect cs 0 0 500 50 rgbWhite
  let cs := draw_text g cs (5, 5) results
  if n = 0 then draw_text g (draw_rect cs 0 50 500 150 rgbWhite) (5, 55) noFacesMsg
  else cs

/-- `make_contact_sheet(img_list, results)`: banner construction followed by
the grid paste loop with cursor starting at `(0, 50)`. -/
def make_contact_sheet (g : Glyph) (img_list : List Raster) (results : List Char) : Raster :=
  paste_loop (sheet_banner g img_list.length results) img_list 0 50

/-- `concatenate_images(img1, img2)`: new canvas of `img1`'s width and the
summed height, `img1` pasted at `(0, 0)`, `img2` pasted at
`(0, img1.height)`. -/
def concatenate_images (img1 img2 : Raster) : Raster :=
  let result := image_new img1.width (img1.height + img2.height)
  let result := result.paste img1 0 0
  result.paste img2 0 img1.height

/-- An image-information dictionary after `cvt_color` and `get_text` have
populated the `gray` and `text` keys. -/
structure ImgDoc where
  title : List Char
  image : Raster
  cv : Raster
  gray : Raster
  text : List Char
deriving DecidableEq

/-- An image-information dictionary as built at ingest, before `do_project`
populates `gray` and `text`. -/
structure ImgDoc0 where
  title : List Char
  image : Raster
  cv : Raster
deriving DecidableEq

/-- The `cvt_color` plus `get_text` passes of `do_project`, with the
BGR-to-gray conversion and the OCR engine as external collaborators. -/
def populate (cvt : Raster → Raster) (ocr : Raster → List Char) (d : ImgDoc0) : ImgDoc :=
  let g := cvt d.cv
  ⟨d.title, d.image, d.cv, g, ocr g⟩

/-- `phrase_in(img, search_phrase)`: Python's `in` on strings, i.e. an exact
case-sensitive substring test against the page's OCR text. -/
def phrase_in (img : ImgDoc) (search_phrase : List Char) : Bool :=
  if search_phrase <:+: img.text then true else false

/-- The caption string `"Results found in file "` followed by the document
title, as produced by `search_page`. -/
def search_caption (img : ImgDoc) : List Char :=
  ("Results found in file ").toList ++ img.title

/-- One document's contact sheet inside `do_project`: detector passes (the
two external cascades applied to the gray raster), `find_faces` filtering,
`get_faces` cropping, `make_thumbnails` (external resampler `thumb`, applied
to each crop) and `make_contact_sheet`. -/
def doc_sheet (fd ed : Raster → List Box) (thumb : Raster → Raster) (g : Glyph)
    (img : ImgDoc) : Raster :=
  let faces := find_faces (fd img.gray) (ed img.gray)
  let images := (get_faces_rasters img.image faces).map thumb
  make_contact_sheet g images (search_caption img)

/-- The Python error raised when a local variable is read before assignment. -/
def unboundLocalError : List Char := ("UnboundLocalError").toList

/-- The main loop of `do_project` over the (already populated) document list.
`first` is `img_list[0]`; the accumulator mirrors the local variable
`contact_sheet`, `none` while it is still unassigned.  A matching document
equal to `img_list[0]` (re)seeds the accumulator; any other matching document
concatenates onto it, which raises `UnboundLocalError` when it was never
assigned. -/
def project_loop (fd ed : Raster → List Box) (thumb : Raster → Raster) (g : Glyph)
    (phrase : List Char) (first : ImgDoc) :
    Option Raster → List ImgDoc → Except (List Char) (Option Raster)
  | acc, [] => Except.ok acc
  | acc, img :: rest =>
    if phrase_in img phrase then
      if img = first then
        project_loop fd ed thumb g phrase first (some (doc_sheet fd ed thumb g img)) rest
      else
        match acc with
        | none => Except.error unboundLocalError
        | some cs =>
          project_loop fd ed thumb g phrase first
            (some (concatenate_images cs (doc_sheet fd ed thumb g img))) rest
    else
      project_loop fd ed thumb g phrase first acc rest

/-- `do_project(img_list, phrase_to_search)`: populate `gray` and `text` on
every document, then run the accumulation loop; returning the never-assigned
`contact_sheet` (empty collection, or a run in which no document matched)
raises `UnboundLocalError`. -/
def do_project (cvt : Raster → Raster) (ocr : Raster → List Char)
    (fd ed : Raster → List Box) (thumb : Raster → Raster) (g : Glyph)
    (imgs : List ImgDoc0) (phrase : List Char) : Except (List Char) Raster :=
  let docs := imgs.map (populate cvt ocr)
  match docs with
  | [] => Except.error unboundLocalError
  | first :: _ =>
    match project_loop fd ed thumb g phrase first none docs with
    | Except.error e => Except.error e
    | Except.ok none => Except.error unboundLocalError
    | Except.ok (some cs) => Except.ok cs

/-! ### Basic raster lemmas -/

theorem px_mkImage (w hgt : Nat) (f : Nat → Nat → RGB) {i j : Nat}
    (hi : i < w) (hj : j < hgt) : (mkImage w hgt f).px i j = f i j := by
  have hj' : j < (List.range hgt).length := by simpa using hj
  have hi' : i < (List.range w).length := by simpa using hi
  have hmj : j < ((List.range hgt).map fun j =>
      (List.range w).map fun i => f i j).length := by simpa using hj
  unfold mkImage Raster.px
  dsimp only
  rw [List.getD_eq_getElem _ _ hmj, List.getElem_map]
  have hmi : i < ((List.range w).map fun i =>
      f i ((List.range hgt)[j])).length := by simpa using hi
  rw [List.getD_eq_getElem _ _ hmi, List.getElem_map,
    List.getElem_range, List.getElem_range]

theorem width_mkImage (w hgt : Nat) (f : Nat → Nat → RGB) :
    (mkImage w hgt f).width = w := rfl

theorem height_mkImage (w hgt : Nat) (f : Nat → Nat → RGB) :
    (mkImage w hgt f).height = hgt := rfl

theorem paste_width (base img : Raster) (x0 y0 : Nat) :
    (base.paste img x0 y0).width = base.width := rfl

theorem paste_height (base img : Raster) (x0 y0 : Nat) :
    (base.paste img x0 y0).height = base.height := rfl

theorem paste_loop_width (l : List Raster) (canvas : Raster) (x y : Nat) :
    (paste_loop canvas l x y).width = canvas.width := by
  induction l generalizing canvas x y with
  | nil => rfl
  | cons img rest ih =>
    unfold paste_loop
    by_cases hx : x + 100 = (canvas.paste img x y).width
    · rw [if_pos hx, ih]; rfl
    · rw [if_neg hx, ih]; rfl

theorem paste_loop_height (l : List Raster) (canvas : Raster) (x y : Nat) :
    (paste_loop canvas l x y).height = canvas.height := by
  induction l generalizing canvas x y with
  | nil => rfl
  | cons img rest ih =>
    unfold paste_loop
    by_cases hx : x + 100 = (canvas.paste img x y).width
    · rw [if_pos hx, ih]; rfl
    · rw [if_neg hx, ih]; rfl

theorem sheet_banner_width (g : Glyph) (n : Nat) (results : List Char) :
    (sheet_banner g n results).width = 500 := by
  unfold sheet_banner
  split <;> rfl

theorem sheet_banner_height (g : Glyph) (n : Nat) (results : List Char) :
    (sheet_banner g n results).height = sheet_rows n * 100 + 50 := by
  unfold sheet_banner
  split <;> rfl

theorem sheet_rows_eq (n : Nat) :
    sheet_rows n = if n = 0 then 1 else (n + 4) / 5 := by
  simp only [sheet_rows]
  split_ifs <;> omega

/-! ### Order properties of the lexicographic box comparison -/

theorem boxLe_total (a b : Box) : boxLe a b ∨ boxLe b a := by
  cases a; cases b
  simp only [boxLe]
  omega

theorem boxLe_trans {a b c : Box} (h1 : boxLe a b) (h2 : boxLe b c) : boxLe a c := by
  cases a; cases b; cases c
  simp only [boxLe] at h1 h2 ⊢
  omega

theorem boxLe_antisymm {a b : Box} (h1 : boxLe a b) (h2 : boxLe b a) : a = b := by
  cases a; cases b
  simp only [boxLe] at h1 h2
  simp only [Box.mk.injEq]
  omega

theorem boxLe_refl (a : Box) : boxLe a a := by
  cases a
  simp [boxLe]

instance : IsTotal Box boxLe := ⟨boxLe_total⟩

instance : IsTrans Box boxLe := ⟨fun _ _ _ => boxLe_trans⟩

instance : IsAntisymm Box boxLe := ⟨fun _ _ => boxLe_antisymm⟩

instance : IsAntisymm Box boxLt :=
  ⟨fun _ _ h1 h2 => boxLe_antisymm h1.1 h2.1⟩

/-! ### Deduplication lemmas -/

theorem mem_dedupConsec {a : Box} : ∀ {l : List Box}, a ∈ dedupConsec l ↔ a ∈ l
  | [] => Iff.rfl
  | b :: rest => by
    match rest with
    | [] => simp [dedupConsec]
    | c :: t =>
      by_cases hbc : b = c
      · rw [dedupConsec, if_pos hbc]
        rw [mem_dedupConsec (l := c :: t)]
        subst hbc
        simp
      · rw [dedupConsec, if_neg hbc]
        simp only [List.mem_cons]
        rw [mem_dedupConsec (l := c :: t)]
        simp

theorem dedupConsec_sorted_strict :
    ∀ {l : List Box}, l.Sorted boxLe → (dedupConsec l).Sorted boxLt
  | [], _ => by simp [dedupConsec]
  | b :: rest, hs => by
    match rest with
    | [] => simp [dedupConsec]
    | c :: t =>
      have hbc' : boxLe b c := (List.sorted_cons.1 hs).1 c (by simp)
      have hall : ∀ y ∈ c :: t, boxLe b y := (List.sorted_cons.1 hs).1
      have htail : (c :: t).Sorted boxLe := (List.sorted_cons.1 hs).2
      have ih := dedupConsec_sorted_strict htail
      by_cases hbc : b = c
      · rw [dedupConsec, if_pos hbc]
        exact ih
      · rw [dedupConsec, if_neg hbc]
        refine List.sorted_cons.2 ⟨?_, ih⟩
        intro y hy
        have hyct : y ∈ c :: t := mem_dedupConsec.1 hy
        have hby : boxLe b y := hall y hyct
        refine ⟨hby, fun hbyeq => ?_⟩
        rcases List.mem_cons.1 hyct with hc | ht
        · exact hbc (hbyeq.trans hc)
        · have hcy : boxLe c b := by
            rw [hbyeq]
            exact List.rel_of_sorted_cons htail y ht
          exact hbc (boxLe_antisymm hbc' hcy)

theorem dedupConsec_nodup {l : List Box} (hs : l.Sorted boxLe) :
    (dedupConsec l).Nodup := by
  have := dedupConsec_sorted_strict hs
  exact List.Pairwise.imp (fun h => h.2) this

/-! ### Characterisation of the face filter -/

theorem mem_face_list {faces eyes : List Box} {b : Box} :
    b ∈ face_list faces eyes ↔ b ∈ faces ∧ ∃ e ∈ eyes, eyeInFace b e := by
  unfold face_list
  simp only [List.mem_flatMap]
  constructor
  · rintro ⟨f, hf, e, he, hbe⟩
    by_cases hc : eyeInFace f e
    · rw [if_pos hc] at hbe
      simp only [List.mem_singleton] at hbe
      subst hbe
      exact ⟨hf, e, he, hc⟩
    · rw [if_neg hc] at hbe
      simp at hbe
  · rintro ⟨hb, e, he, hc⟩
    refine ⟨b, hb, e, he, ?_⟩
    rw [if_pos hc]
    simp

theorem find_faces_sorted_strict (faces eyes : List Box) :
    (find_faces faces eyes).Sorted boxLt :=
  dedupConsec_sorted_strict (List.sorted_insertionSort boxLe _)

theorem find_faces_nodup (faces eyes : List Box) :
    (find_faces faces eyes).Nodup :=
  dedupConsec_nodup (List.sorted_insertionSort boxLe _)

theorem mem_find_faces {faces eyes : List Box} {b : Box} :
    b ∈ find_faces faces eyes ↔ b ∈ faces ∧ ∃ e ∈ eyes, eyeInFace b e := by
  unfold find_faces
  rw [mem_dedupConsec, (List.perm_insertionSort boxLe _).mem_iff, mem_face_list]

theorem strictSorted_eq_of_mem_iff {l1 l2 : List Box}
    (h1 : l1.Sorted boxLt) (h2 : l2.Sorted boxLt)
    (hm : ∀ a, a ∈ l1 ↔ a ∈ l2) : l1 = l2 := by
  have hn1 : l1.Nodup := List.Pairwise.imp (fun h => h.2) h1
  have hn2 : l2.Nodup := List.Pairwise.imp (fun h => h.2) h2
  exact List.eq_of_perm_of_sorted ((List.perm_ext_iff_of_nodup hn1 hn2).2 hm) h1 h2

/-! ### Grid placement as an explicit position walk -/

/-- Fold a list of image/position pairs into a canvas by successive pastes. -/
def pasteAll : Raster → List (Raster × (Nat × Nat)) → Raster
  | canvas, [] => canvas
  | canvas, (img, p) :: rest => pasteAll (canvas.paste img p.1 p.2) rest

/-- The sequence of cursor positions visited by the paste loop of
`make_contact_sheet`: advance `x` by 100 after each step, wrap to the next row
when `x + 100` reaches the sheet width `w`. -/
def grid_walk (w : Nat) : Nat → Nat → Nat → List (Nat × Nat)
  | 0, _, _ => []
  | n + 1, x, y =>
    (x, y) :: (if x + 100 = w then grid_walk w n 0 (y + 100) else grid_walk w n (x + 100) y)

theorem paste_loop_eq_pasteAll (l : List Raster) (canvas : Raster) (x y : Nat) :
    paste_loop canvas l x y =
      pasteAll canvas (l.zip (grid_walk canvas.width l.length x y)) := by
  induction l generalizing canvas x y with
  | nil => rfl
  | cons img rest ih =>
    simp only [paste_loop, List.length_cons, grid_walk]
    by_cases hx : x + 100 = canvas.width
    · rw [if_pos (show x + 100 = (canvas.paste img x y).width from hx), if_pos hx,
        List.zip_cons_cons]
      simp only [pasteAll]
      rw [ih]
      rfl
    · rw [if_neg (show ¬ x + 100 = (canvas.paste img x y).width from hx), if_neg hx,
        List.zip_cons_cons]
      simp only [pasteAll]
      rw [ih]
      rfl

theorem grid_walk_getD : ∀ (n k c r : Nat), k < n → c < 5 →
    (grid_walk 500 n (100 * c) r).getD k (0, 0) =
      (100 * ((c + k) % 5), r + 100 * ((c + k) / 5))
  | 0, _, _, _, hk, _ => by omega
  | n + 1, k, c, r, hk, hc => by
    simp only [grid_walk]
    match k with
    | 0 =>
      rw [List.getD_cons_zero]
      have h1 : (c + 0) % 5 = c := by omega
      have h2 : (c + 0) / 5 = 0 := by omega
      rw [h1, h2]
      simp
    | k + 1 =>
      rw [List.getD_cons_succ]
      by_cases h4 : c = 4
      · subst h4
        rw [if_pos (by norm_num)]
        have h0 : grid_walk 500 n 0 (r + 100) = grid_walk 500 n (100 * 0) (r + 100) := by
          norm_num
        rw [h0, grid_walk_getD n k 0 (r + 100) (by omega) (by omega)]
        simp only [Prod.mk.injEq]
        constructor <;> omega
      · rw [if_neg (by omega)]
        have h1 : 100 * c + 100 = 100 * (c + 1) := by ring
        rw [h1, grid_walk_getD n k (c + 1) r (by omega) (by omega)]
        simp only [Prod.mk.injEq]
        constructor <;> omega

/-! ### Orchestrator loop lemmas -/

theorem project_loop_no_match (fd ed : Raster → List Box) (thumb : Raster → Raster)
    (g : Glyph) (phrase : List Char) (first : ImgDoc) :
    ∀ (l : List ImgDoc) (acc : Option Raster),
      (∀ d ∈ l, phrase_in d phrase = false) →
      project_loop fd ed thumb g phrase first acc l = Except.ok acc
  | [], _, _ => rfl
  | img :: rest, acc, hl => by
    have himg : phrase_in img phrase = false := hl img (by simp)
    simp only [project_loop, himg]
    simp only [Bool.false_eq_true, if_false]
    exact project_loop_no_match fd ed thumb g phrase first rest acc
      fun d hd => hl d (by simp [hd])

theorem project_loop_unseeded_error (fd ed : Raster → List Box) (thumb : Raster → Raster)
    (g : Glyph) (phrase : List Char) (first : ImgDoc)
    (hfirst : phrase_in first phrase = false) :
    ∀ (l : List ImgDoc), (∃ d ∈ l, phrase_in d phrase = true) →
      project_loop fd ed thumb g phrase first none l = Except.error unboundLocalError
  | [], hex => by
    rcases hex with ⟨d, hd, _⟩
    cases hd
  | img :: rest, hex => by
    by_cases hi : phrase_in img phrase = true
    · have hne : ¬ img = first := by
        intro he
        rw [he, hfirst] at hi
        cases hi
      simp only [project_loop, hi, if_true, if_neg hne]
    · have hif : phrase_in img phrase = false := by
        cases hb : phrase_in img phrase
        · rfl
        · exact absurd hb hi
      simp only [project_loop, hif, Bool.false_eq_true, if_false]
      apply project_loop_unseeded_error fd ed thumb g phrase first hfirst rest
      rcases hex with ⟨d, hd, hmatch⟩
      rcases List.mem_cons.1 hd with hdi | hdr
      · subst hdi
        simp [hif] at hmatch
      · exact ⟨d, hdr, hmatch⟩

/-- C1: the claim states that when no document's extracted text contains the
search phrase (including the zero-document collection), `do_project` still
returns well-defined output.  The code does not: the local `contact_sheet` is
only ever assigned inside the matching branch, so with zero matches the final
`return contact_sheet` reads an unassigned local and raises
`UnboundLocalError`.  This theorem evaluates the code at the failing inputs:
every zero-match collection produces the error outcome. -/
theorem do_project_unbound_of_no_match (cvt : Raster → Raster) (ocr : Raster → List Char)
    (fd ed : Raster → List Box) (thumb : Raster → Raster) (g : Glyph)
    (imgs : List ImgDoc0) (phrase : List Char)
    (hnm : ∀ d ∈ imgs, phrase_in (populate cvt ocr d) phrase = false) :
    do_project cvt ocr fd ed thumb g imgs phrase = Except.error unboundLocalError := by
  have hall : ∀ d ∈ imgs.map (populate cvt ocr), phrase_in d phrase = false := by
    intro d hd
    rcases List.mem_map.1 hd with ⟨d0, hd0, hde⟩
    rw [← hde]
    exact hnm d0 hd0
  simp only [do_project]
  cases him : imgs.map (populate cvt ocr) with
  | nil => rfl
  | cons first rest =>
    rw [him] at hall
    have hok := project_loop_no_match fd ed thumb g phrase first (first :: rest) none hall
    simp [hok]

/-- C2: whenever at least one document's text contains the search phrase but
the first document's text does not, `do_project` fails with the
unbound-variable error instead of returning a contact sheet: the accumulator
is seeded only when the matching document compares equal to `img_list[0]`
(impossible here, since equal dictionaries have equal text), so the first
matching document takes the concatenation branch and reads the unassigned
`contact_sheet`. -/
theorem do_project_unbound_of_first_unmatched (cvt : Raster → Raster)
    (ocr : Raster → List Char) (fd ed : Raster → List Box) (thumb : Raster → Raster)
    (g : Glyph) (d0 : ImgDoc0) (drest : List ImgDoc0) (phrase : List Char)
    (hfirst : phrase_in (populate cvt ocr d0) phrase = false)
    (hex : ∃ d ∈ d0 :: drest, phrase_in (populate cvt ocr d) phrase = true) :
    do_project cvt ocr fd ed thumb g (d0 :: drest) phrase =
      Except.error unboundLocalError := by
  simp only [do_project, List.map_cons]
  rw [project_loop_unseeded_error fd ed thumb g phrase (populate cvt ocr d0) hfirst
    (populate cvt ocr d0 :: drest.map (populate cvt ocr)) ?_]
  rcases hex with ⟨d, hd, hmatch⟩
  rcases List.mem_cons.1 hd with hdi | hdr
  · subst hdi
    simp [hfirst] at hmatch
  · exact ⟨populate cvt ocr d,
      List.mem_cons_of_mem _ (List.mem_map_of_mem _ hdr), hmatch⟩

/-! ### Concatenation lemmas -/

theorem concatenate_images_width (A B : Raster) :
    (concatenate_images A B).width = A.width := rfl

theorem concatenate_images_height (A B : Raster) :
    (concatenate_images A B).height = A.height + B.height := rfl

theorem px_paste (base img : Raster) (x0 y0 i j : Nat)
    (hi : i < base.width) (hj : j < base.height) :
    (base.paste img x0 y0).px i j =
      if x0 ≤ i ∧ i < x0 + img.width ∧ y0 ≤ j ∧ j < y0 + img.height then
        img.px (i - x0) (j - y0)
      else base.px i j := by
  unfold Raster.paste
  exact px_mkImage _ _ _ hi hj

theorem concatenate_images_top (A B : Raster) {i j : Nat}
    (hi : i < (concatenate_images A B).width) (hj : j < A.height) :
    (concatenate_images A B).px i j = A.px i j := by
  have hi' : i < A.width := hi
  have hjh : j < A.height + B.height := by omega
  unfold concatenate_images
  rw [px_paste ((image_new A.width (A.height + B.height)).paste A 0 0) B 0 A.height i j
      hi' hjh, if_neg (by omega),
    px_paste (image_new A.width (A.height + B.height)) A 0 0 i j hi' hjh,
    if_pos (by omega)]
  simp

theorem concatenate_images_bottom (A B : Raster) {i j : Nat}
    (hi : i < (concatenate_images A B).width) (hib : i < B.width) (hj : j < B.height) :
    (concatenate_images A B).px i (A.height + j) = B.px i j := by
  have hi' : i < A.width := hi
  have hjh : A.height + j < A.height + B.height := by omega
  unfold concatenate_images
  rw [px_paste ((image_new A.width (A.height + B.height)).paste A 0 0) B 0 A.height i
      (A.height + j) hi' hjh, if_pos (by omega)]
  simp

/-! ### Claim theorems -/

/-- C4: a face box `F = (x, y, w, h)` is retained by the face filter iff at
least one eye box's top-left corner `(ex, ey)` satisfies `x <= ex <= x + w`
and `y <= ey <= y + h` (closed intervals, inclusive on both corners); with
zero eye boxes the result is empty. -/
theorem find_faces_retains_iff_eye_anchor_inside :
    (∀ (faces eyes : List Box) (b : Box),
      b ∈ find_faces faces eyes ↔
        b ∈ faces ∧ ∃ e ∈ eyes,
          b.x ≤ e.x ∧ e.x ≤ b.x + b.w ∧ b.y ≤ e.y ∧ e.y ≤ b.y + b.h) ∧
    (∀ faces : List Box, find_faces faces [] = []) := by
  constructor
  · intro faces eyes b
    exact mem_find_faces
  · intro faces
    have hfl : face_list faces [] = [] := by
      unfold face_list
      simp
    unfold find_faces
    rw [hfl]
    rfl

/-- C6 counterexample: the claim says a detector box with non-positive width
or height is rejected before the containment test and never appears in the
filter's output; but `find_faces` performs no such screening, and a zero-size
face box whose corner coincides with an eye anchor is validated and
returned. -/
theorem malformed_box_not_rejected_counterexample :
    (Box.mk 5 5 0 0).w ≤ 0 ∧
      Box.mk 5 5 0 0 ∈ find_faces [Box.mk 5 5 0 0] [Box.mk 5 5 0 0] := by
  decide

/-- C6 amended: `find_faces` applies no validity screening to detector boxes;
a non-positive-size box takes part in the same containment test as any other.
A face box with strictly negative width or height can never be validated (its
closed rectangle is empty), but a zero-size box can be validated when an eye
anchor coincides with it, and processing is never aborted. -/
theorem negative_size_box_never_validated (faces eyes : List Box) (f : Box)
    (hneg : f.w < 0 ∨ f.h < 0) : f ∉ find_faces faces eyes := by
  intro hmem
  rcases mem_find_faces.1 hmem with ⟨-, e, -, he⟩
  rcases he with ⟨h1, h2, h3, h4⟩
  rcases hneg with hw | hh
  · omega
  · omega

/-- C6 witness: a face box of width `-1` is never validated. -/
theorem negative_size_box_never_validated_witness :
    Box.mk 0 0 (-1) 3 ∉ find_faces [Box.mk 0 0 (-1) 3] [Box.mk 0 0 2 2] :=
  negative_size_box_never_validated _ _ _ (Or.inl (by decide))

/-- C7: the face filter's output is sorted lexicographically by
`(x, y, w, h)`, lists no box twice, and lists every accepted face box exactly
once, even when several eye boxes fall inside the same face box. -/
theorem find_faces_sorted_dedup (faces eyes : List Box) :
    (find_faces faces eyes).Sorted boxLe ∧ (find_faces faces eyes).Nodup ∧
      ∀ b : Box, b ∈ faces → (∃ e ∈ eyes, eyeInFace b e) →
        (find_faces faces eyes).count b = 1 := by
  refine ⟨List.Pairwise.imp (fun h => h.1) (find_faces_sorted_strict faces eyes),
    find_faces_nodup faces eyes, ?_⟩
  intro b hb he
  exact List.count_eq_one_of_mem (find_faces_nodup faces eyes)
    (mem_find_faces.2 ⟨hb, he⟩)

/-- C7 witness: two eye boxes inside the same face box; the face box is
listed exactly once. -/
theorem find_faces_sorted_dedup_witness :
    (find_faces [Box.mk 0 0 10 10] [Box.mk 1 1 2 2, Box.mk 2 2 2 2]).count
      (Box.mk 0 0 10 10) = 1 :=
  (find_faces_sorted_dedup [Box.mk 0 0 10 10] [Box.mk 1 1 2 2, Box.mk 2 2 2 2]).2.2
    (Box.mk 0 0 10 10) (by decide) ⟨Box.mk 1 1 2 2, by decide, by decide⟩

/-- C9: the face filter's output is invariant under any permutation of the
order in which the face boxes and the eye boxes are supplied. -/
theorem find_faces_perm_invariant (faces faces' eyes eyes' : List Box)
    (hf : faces.Perm faces') (he : eyes.Perm eyes') :
    find_faces faces eyes = find_faces faces' eyes' := by
  apply strictSorted_eq_of_mem_iff (find_faces_sorted_strict faces eyes)
    (find_faces_sorted_strict faces' eyes')
  intro b
  rw [mem_find_faces, mem_find_faces, hf.mem_iff]
  constructor
  · rintro ⟨hb, e, hee, hin⟩
    exact ⟨hb, e, he.mem_iff.1 hee, hin⟩
  · rintro ⟨hb, e, hee, hin⟩
    exact ⟨hb, e, he.mem_iff.2 hee, hin⟩

/-- C9 witness: swapping both input lists leaves the output unchanged. -/
theorem find_faces_perm_invariant_witness :
    find_faces [Box.mk 0 0 10 10, Box.mk 20 20 5 5] [Box.mk 1 1 2 2, Box.mk 21 21 1 1] =
      find_faces [Box.mk 20 20 5 5, Box.mk 0 0 10 10] [Box.mk 21 21 1 1, Box.mk 1 1 2 2] :=
  find_faces_perm_invariant _ _ _ _
    (List.Perm.swap (Box.mk 20 20 5 5) (Box.mk 0 0 10 10) [])
    (List.Perm.swap (Box.mk 21 21 1 1) (Box.mk 1 1 2 2) [])

/-- C10: the phrase-match test succeeds iff the phrase is a case-sensitive,
exact, un-normalised substring of the document's extracted text; in
particular a page reading "chris is here" does not match the search phrase
"Chris". -/
theorem phrase_in_iff_substring :
    (∀ (img : ImgDoc) (p : List Char), phrase_in img p = true ↔ p <:+: img.text) ∧
      phrase_in (ImgDoc.mk [] (Raster.mk 0 0 []) (Raster.mk 0 0 []) (Raster.mk 0 0 [])
        ("chris is here").toList) (("Chris").toList) = false := by
  constructor
  · intro img p
    by_cases hin : p <:+: img.text <;> simp [phrase_in, hin]
  · decide

/-- C3 counterexample: the claim says `concatenate_images` produces a canvas
of width `max(width_A, width_B)`; the code uses `img1.width`, so with a first
image of width 2 and a second of width 3 the result has width 2, not 3. -/
theorem concatenate_images_width_not_max_counterexample :
    ¬ ((concatenate_images (Raster.mk 2 1 [[rgbBlack, rgbBlack]])
        (Raster.mk 3 1 [[rgbBlack, rgbBlack, rgbBlack]])).width =
      max (Raster.mk 2 1 [[rgbBlack, rgbBlack]]).width
        (Raster.mk 3 1 [[rgbBlack, rgbBlack, rgbBlack]]).width) := by
  decide

/-- C3 amended: `concatenate_images(A, B)` produces a new canvas of width
`A.width` (the first sheet's width, not the maximum) and height
`A.height + B.height`, with `A` pasted at `(0, 0)` and `B` at
`(0, A.height)`; the top region equals `A` exactly, and the region below
equals `B` on every column that lies within both widths (`B` is cropped when
wider).  The operation is pure: it builds a fresh canvas and reads, never
writes, its inputs. -/
theorem concatenate_images_dims_and_regions (A B : Raster) :
    (concatenate_images A B).width = A.width ∧
    (concatenate_images A B).height = A.height + B.height ∧
    (∀ i j : Nat, i < (concatenate_images A B).width → j < A.height →
      (concatenate_images A B).px i j = A.px i j) ∧
    (∀ i j : Nat, i < (concatenate_images A B).width → i < B.width → j < B.height →
      (concatenate_images A B).px i (A.height + j) = B.px i j) := by
  refine ⟨rfl, rfl, ?_, ?_⟩
  · intro i j hi hj
    exact concatenate_images_top A B hi hj
  · intro i j hi hib hj
    exact concatenate_images_bottom A B hi hib hj

/-- C3 witness: on concrete one-pixel sheets, the top region shows the first
image's pixel and the row below shows the second image's pixel. -/
theorem concatenate_images_dims_and_regions_witness :
    (concatenate_images (Raster.mk 1 1 [[rgbWhite]]) (Raster.mk 1 1 [[(7, 7, 7)]])).px 0 0 =
      (Raster.mk 1 1 [[rgbWhite]]).px 0 0 ∧
    (concatenate_images (Raster.mk 1 1 [[rgbWhite]]) (Raster.mk 1 1 [[(7, 7, 7)]])).px 0 1 =
      (Raster.mk 1 1 [[(7, 7, 7)]]).px 0 0 :=
  ⟨(concatenate_images_dims_and_regions _ _).2.2.1 0 0 (by decide) (by decide),
    (concatenate_images_dims_and_regions _ _).2.2.2 0 0 (by decide) (by decide) (by decide)⟩

/-- C5: the contact sheet has width 500 and height
`ceil(count / 5) * 100 + 50`, where an empty list still yields one grid row;
concretely the height is 150 for 0 thumbnails, 150 for 5 and 250 for 6. -/
theorem make_contact_sheet_dims (g : Glyph) (imgs : List Raster) (res : List Char) :
    (make_contact_sheet g imgs res).width = 500 ∧
    (make_contact_sheet g imgs res).height =
      (if imgs.length = 0 then 1 else (imgs.length + 4) / 5) * 100 + 50 ∧
    (make_contact_sheet g [] res).height = 150 ∧
    (make_contact_sheet g (List.replicate 5 (image_new 100 100)) res).height = 150 ∧
    (make_contact_sheet g (List.replicate 6 (image_new 100 100)) res).height = 250 := by
  have hh : ∀ l : List Raster, (make_contact_sheet g l res).height =
      (if l.length = 0 then 1 else (l.length + 4) / 5) * 100 + 50 := by
    intro l
    unfold make_contact_sheet
    rw [paste_loop_height, sheet_banner_height, sheet_rows_eq]
  refine ⟨?_, hh imgs, ?_, ?_, ?_⟩
  · unfold make_contact_sheet
    rw [paste_loop_width, sheet_banner_width]
  · rw [hh]
    norm_num
  · rw [hh]
    norm_num
  · rw [hh]
    norm_num

/-- C8: `make_contact_sheet` pastes the thumbnails row-major along the cursor
walk that starts at `(0, 50)`, advances `x` by 100 after each paste and wraps
to `(0, y + 100)` when `x` reaches the canvas width 500; the `k`-th position
is `(100 * (k mod 5), 50 + 100 * (k div 5))`, and with 7 thumbnails items 0-4
sit at `y = 50` and items 5-6 at `y = 150`, `x` cycling through
0,100,200,300,400. -/
theorem make_contact_sheet_grid_placement :
    (∀ (g : Glyph) (imgs : List Raster) (res : List Char),
      make_contact_sheet g imgs res =
        pasteAll (sheet_banner g imgs.length res)
          (imgs.zip (grid_walk 500 imgs.length 0 50))) ∧
    (∀ n k : Nat, k < n →
      (grid_walk 500 n 0 50).getD k (0, 0) = (100 * (k % 5), 50 + 100 * (k / 5))) ∧
    grid_walk 500 7 0 50 =
      [(0, 50), (100, 50), (200, 50), (300, 50), (400, 50), (0, 150), (100, 150)] := by
  refine ⟨?_, ?_, by decide⟩
  · intro g imgs res
    unfold make_contact_sheet
    rw [paste_loop_eq_pasteAll, sheet_banner_width]
  · intro n k hk
    have h := grid_walk_getD n k 0 50 hk (by omega)
    simpa using h

/-- C8 witness: the seventh paste position (index 6) is `(100, 150)`. -/
theorem make_contact_sheet_grid_placement_witness :
    (grid_walk 500 7 0 50).getD 6 (0, 0) = (100, 150) := by
  have h := make_contact_sheet_grid_placement.2.1 7 6 (by norm_num)
  simpa using h

/-- C1 witness: a one-document collection whose page text does not contain
the phrase ends in the `UnboundLocalError` outcome. -/
theorem do_project_unbound_of_no_match_witness :
    do_project id (fun _ => []) (fun _ => []) (fun _ => []) id (fun _ _ _ _ => none)
      [ImgDoc0.mk [] (Raster.mk 0 0 []) (Raster.mk 0 0 [])] (("Chris").toList) =
      Except.error unboundLocalError :=
  do_project_unbound_of_no_match _ _ _ _ _ _ _ _ (by decide)

/-- C2 witness: two documents, the second matching the phrase and the first
not; `do_project` raises `UnboundLocalError`. -/
theorem do_project_unbound_of_first_unmatched_witness :
    do_project id (fun r => if r.width = 0 then [] else [('a' : Char)])
      (fun _ => []) (fun _ => []) id (fun _ _ _ _ => none)
      [ImgDoc0.mk [] (Raster.mk 0 0 []) (Raster.mk 0 0 []),
        ImgDoc0.mk [] (Raster.mk 0 0 []) (Raster.mk 1 1 [[rgbBlack]])]
      [('a' : Char)] = Except.error unboundLocalError :=
  do_project_unbound_of_first_unmatched _ _ _ _ _ _ _ _ _ (by decide)
    ⟨ImgDoc0.mk [] (Raster.mk 0 0 []) (Raster.mk 1 1 [[rgbBlack]]), by decide, by decide⟩
